import Mathlib

/-!
Verification of the CSV sorter (`src/app/page.tsx`): the row-filtering,
schema-normalization and multi-key-sorting pipeline of both UI variants
(the generic "CSV Sorter" page and the domain-specific trading-card page).

JavaScript strings are modelled as lists of characters (`Str`), records as
association lists from column name to cell value, and the asynchronous UI
state updates as explicit state-passing functions.  JS numbers are modelled
as `Int` (the comparator only consumes the sign of a numeric difference;
IEEE-754-specific behaviour such as `NaN` is outside the model).
-/

namespace CsvSort

/-- A JavaScript string, modelled as its list of characters. -/
abbrev Str := List Char

/-- Sign-valued comparison of two characters by code point, the primitive
underlying plain (code-unit) JS string comparison. -/
def charCmp (a b : Char) : Int :=
  if a < b then -1 else if b < a then 1 else 0

/-- Lexicographic sign-valued comparison of two strings by code point:
model of plain (non-locale-aware) JS string ordering. -/
def lexCmp : Str → Str → Int
  | [], [] => 0
  | [], _ :: _ => -1
  | _ :: _, [] => 1
  | a :: as, b :: bs => if charCmp a b = 0 then lexCmp as bs else charCmp a b

/-- Does `s` start with `pat`?  Model of a JS prefix test. -/
def startsSeg : Str → Str → Bool
  | _, [] => true
  | [], _ :: _ => false
  | c :: cs, p :: ps => c = p && startsSeg cs ps

/-- Model of JS `String.prototype.includes`: does `pat` occur contiguously
inside `s`?  (Our uses always have a non-empty `pat`.) -/
def strIncludes (s pat : Str) : Bool :=
  match s with
  | [] => startsSeg [] pat
  | _ :: cs => startsSeg s pat || strIncludes cs pat

/-- ASCII lower-casing of one character: model of JS `toLowerCase` on the
ASCII inputs this program handles. -/
def lowerChar (c : Char) : Char :=
  if 'A' ≤ c ∧ c ≤ 'Z' then Char.ofNat (c.toNat + 32) else c

/-- Swap the case of one ASCII character (used only inside the tie-break of
the `localeCompare` model, to place lowercase before uppercase). -/
def swapChar (c : Char) : Char :=
  if 'A' ≤ c ∧ c ≤ 'Z' then Char.ofNat (c.toNat + 32)
  else if 'a' ≤ c ∧ c ≤ 'z' then Char.ofNat (c.toNat - 32)
  else c

/-- Model of JS `String.prototype.toLowerCase` (ASCII). -/
def toLowerStr (s : Str) : Str := s.map lowerChar

/-- Case-swapped copy of a string (helper for the `localeCompare` model). -/
def swapCaseStr (s : Str) : Str := s.map swapChar

/-- Modelled from the spec: `String.prototype.localeCompare` under the
default locale is a browser builtin not present in the repository, glossed
by the spec as "locale-aware string comparison".  The ECMA-402 default
(ICU root) collation compares case-insensitively first — so `"a"` sorts
before `"B"`, unlike plain code-unit order — and on case-insensitively
equal strings places lowercase before uppercase.  The model realizes that
as: primary key, the lower-cased strings; secondary key, the case-swapped
strings; final tie-break, the raw strings.  It is sign-antisymmetric and
returns `0` exactly on equal strings, as an ECMA-402 collator comparator
does on strings normalization-equivalent only when equal (ASCII here). -/
def localeCompare (s t : Str) : Int :=
  if toLowerStr s = toLowerStr t then
    if swapCaseStr s = swapCaseStr t then lexCmp s t
    else lexCmp (swapCaseStr s) (swapCaseStr t)
  else lexCmp (toLowerStr s) (toLowerStr t)

theorem charCmp_antisym (a b : Char) : charCmp b a = -charCmp a b := by
  unfold charCmp
  rcases lt_trichotomy a b with h | h | h
  · simp [h, lt_asymm h, ne_of_gt h]
  · simp [h, lt_irrefl]
  · simp [h, lt_asymm h, ne_of_gt h]

theorem charCmp_eq_zero_iff (a b : Char) : charCmp a b = 0 ↔ a = b := by
  unfold charCmp
  rcases lt_trichotomy a b with h | h | h
  · simp [h, ne_of_lt h]
  · simp [h]
  · simp [lt_asymm h, h, (ne_of_lt h).symm]

theorem lexCmp_antisym : ∀ s t : Str, lexCmp t s = -lexCmp s t
  | [], [] => by simp [lexCmp]
  | [], _ :: _ => by simp [lexCmp]
  | _ :: _, [] => by simp [lexCmp]
  | a :: as, b :: bs => by
      simp only [lexCmp]
      by_cases h : charCmp a b = 0
      · have h' : charCmp b a = 0 := by rw [charCmp_antisym, h, neg_zero]
        rw [if_pos h, if_pos h']
        exact lexCmp_antisym as bs
      · have h' : ¬ charCmp b a = 0 := by
          rw [charCmp_antisym, neg_eq_zero]; exact h
        rw [if_neg h, if_neg h']
        exact charCmp_antisym a b

theorem lexCmp_eq_zero_iff : ∀ s t : Str, lexCmp s t = 0 ↔ s = t
  | [], [] => by simp [lexCmp]
  | [], _ :: _ => by simp [lexCmp]
  | _ :: _, [] => by simp [lexCmp]
  | a :: as, b :: bs => by
      simp only [lexCmp]
      by_cases h : charCmp a b = 0
      · have hab : a = b := (charCmp_eq_zero_iff a b).mp h
        subst hab
        rw [if_pos h]
        simp [lexCmp_eq_zero_iff as bs]
      · have hab : ¬ a = b := fun e => h ((charCmp_eq_zero_iff a b).mpr e)
        rw [if_neg h]
        simp [h, hab]

theorem localeCompare_antisym (s t : Str) : localeCompare t s = -localeCompare s t := by
  unfold localeCompare
  by_cases h1 : toLowerStr s = toLowerStr t
  · rw [if_pos h1, if_pos h1.symm]
    by_cases h2 : swapCaseStr s = swapCaseStr t
    · rw [if_pos h2, if_pos h2.symm]
      exact lexCmp_antisym s t
    · rw [if_neg h2, if_neg (fun e => h2 e.symm)]
      exact lexCmp_antisym _ _
  · rw [if_neg h1, if_neg (fun e => h1 e.symm)]
    exact lexCmp_antisym _ _

theorem localeCompare_eq_zero_iff (s t : Str) : localeCompare s t = 0 ↔ s = t := by
  unfold localeCompare
  by_cases h1 : toLowerStr s = toLowerStr t
  · rw [if_pos h1]
    by_cases h2 : swapCaseStr s = swapCaseStr t
    · rw [if_pos h2]
      exact lexCmp_eq_zero_iff s t
    · rw [if_neg h2, lexCmp_eq_zero_iff]
      exact iff_of_false h2 (fun e => h2 (by rw [e]))
  · rw [if_neg h1, lexCmp_eq_zero_iff]
    exact iff_of_false h1 (fun e => h1 (by rw [e]))

/-! ### Generic variant: data model (`CSVRow`, `src/app/page.tsx` lines 6-8)

A parsed cell is a string, a number or a boolean (PapaParse may coerce
numeric-looking fields in this variant).  A row maps column names to cells;
we model it as an association list, looked up first-match like a JS object. -/

/-- A cell value of the generic variant: `string | number | boolean`. -/
inductive Value
  | str (s : Str)
  | num (n : Int)
  | bool (b : Bool)
deriving DecidableEq

/-- A parsed row of the generic variant (`CSVRow`). -/
abbrev GRow := List (Str × Value)

/-- JS property access `row[column]`: `none` models `undefined`. -/
def getVal : GRow → Str → Option Value
  | [], _ => none
  | (k, v) :: r, c => if k = c then some v else getVal r c

/-- The noise marker of the generic filter (line 33). -/
def noiseG : Str := "Orders Contained in Pull Sheet".data

/-- Body of the generic filter predicate (lines 32-34):
`Object.values(row).some(v => typeof v === 'string' && v.includes(noiseG))`. -/
def rowNoiseG (row : GRow) : Bool :=
  (row.map Prod.snd).any fun v =>
    match v with
    | Value.str s => strIncludes s noiseG
    | _ => false

/-- The generic variant's filter step (lines 31-35). -/
def genericFilterStep (rows : List GRow) : List GRow :=
  rows.filter fun row => ! rowNoiseG row

/-! ### Generic variant: multi-key comparator (`handleSort`, lines 63-92) -/

/-- A sort direction, `'asc' | 'desc'`. -/
inductive SortDir
  | asc
  | desc
deriving DecidableEq

/-- One user-selected sort key: `{ column, order }` (line 19). -/
structure SortKey where
  column : Str
  dir : SortDir
deriving DecidableEq

/-- Decimal rendering of an integer, as JS `String(n)` renders it. -/
def intToStr (n : Int) : Str :=
  if n < 0 then '-' :: Nat.toDigits 10 n.natAbs else Nat.toDigits 10 n.toNat

/-- Model of the JS conversion `String(value)` applied to a possibly
`undefined` cell (lines 82-83): `String(undefined)` is `"undefined"`. -/
def valueToStr : Option Value → Str
  | none => "undefined".data
  | some (Value.str s) => s
  | some (Value.num n) => intToStr n
  | some (Value.bool b) => if b then "true".data else "false".data

/-- JS `(b ? 1 : 0)` (line 78). -/
def boolToJSNum (b : Bool) : Int := if b then 1 else 0

/-- One iteration of the comparator loop body of `handleSort`
(lines 68-86), for a single sort key. -/
def keyCompare (k : SortKey) (a b : GRow) : Int :=
  match getVal a k.column, getVal b k.column with
  | some (Value.str x), some (Value.str y) =>
      match k.dir with
      | SortDir.asc => localeCompare x y
      | SortDir.desc => localeCompare y x
  | some (Value.num x), some (Value.num y) =>
      match k.dir with
      | SortDir.asc => x - y
      | SortDir.desc => y - x
  | some (Value.bool x), some (Value.bool y) =>
      match k.dir with
      | SortDir.asc => boolToJSNum x - boolToJSNum y
      | SortDir.desc => boolToJSNum y - boolToJSNum x
  | av, bv =>
      match k.dir with
      | SortDir.asc => localeCompare (valueToStr av) (valueToStr bv)
      | SortDir.desc => localeCompare (valueToStr bv) (valueToStr av)

/-- The comparator of `handleSort` (lines 66-88): walk the sort keys in
order; return the first key's nonzero result, `0` if every key ties. -/
def compareRows : List SortKey → GRow → GRow → Int
  | [], _, _ => 0
  | k :: rest, a, b =>
      if keyCompare k a b ≠ 0 then keyCompare k a b else compareRows rest a b

/-! ### The spec's per-key comparison policy (spec section 4.4), stated in
the spec's own words for comparison against the code. -/

/-- Spec-worded per-key comparison: both strings, locale-aware comparison;
both numbers, numeric difference; both booleans, false before true;
otherwise locale-aware comparison of the string representations. -/
def specKeyCmp (a b : GRow) (col : Str) : Int :=
  match getVal a col, getVal b col with
  | some (Value.str x), some (Value.str y) => localeCompare x y
  | some (Value.num x), some (Value.num y) => x - y
  | some (Value.bool x), some (Value.bool y) => boolToJSNum x - boolToJSNum y
  | av, bv => localeCompare (valueToStr av) (valueToStr bv)

/-- Spec-worded direction handling: ascending as-is, descending negated. -/
def applyDir (d : SortDir) (r : Int) : Int :=
  match d with
  | SortDir.asc => r
  | SortDir.desc => -r

/-- Spec-worded multi-key comparator: keys in sequence, each applied with
its own direction, later keys consulted only on ties. -/
def specCompareRows : List SortKey → GRow → GRow → Int
  | [], _, _ => 0
  | k :: rest, a, b =>
      if applyDir k.dir (specKeyCmp a b k.column) ≠ 0 then
        applyDir k.dir (specKeyCmp a b k.column)
      else specCompareRows rest a b

theorem keyCompare_eq_spec (k : SortKey) (a b : GRow) :
    keyCompare k a b = applyDir k.dir (specKeyCmp a b k.column) := by
  obtain ⟨col, dir⟩ := k
  cases dir <;>
    rcases hA : getVal a col with _ | x | x | x <;>
    rcases hB : getVal b col with _ | y | y | y <;>
    simp only [keyCompare, specKeyCmp, applyDir, hA, hB] <;>
    first
      | rfl
      | exact localeCompare_antisym _ _
      | exact (neg_sub _ _).symm

/-! ### Model of `Array.prototype.sort` (stable, comparator-driven) -/

/-- Stable insertion of `a` into `l`: `a` goes before the first element it
compares strictly below, after every element it ties with. -/
def insertSorted (cmp : α → α → Int) (a : α) : List α → List α
  | [] => [a]
  | b :: l => if cmp a b ≤ 0 then a :: b :: l else b :: insertSorted cmp a l

/-- Model of JS `Array.prototype.sort(cmp)` (a stable sort by the
comparator, per the ECMAScript specification): stable insertion sort. -/
def sortByCmp (cmp : α → α → Int) : List α → List α
  | [] => []
  | a :: l => insertSorted cmp a (sortByCmp cmp l)

/-- The sort performed by `handleSort` (`[...csvData].sort(...)`, line 66). -/
def genericSort (spec : List SortKey) (rows : List GRow) : List GRow :=
  sortByCmp (compareRows spec) rows

theorem insertSorted_perm (cmp : α → α → Int) (a : α) :
    ∀ l : List α, List.Perm (insertSorted cmp a l) (a :: l)
  | [] => List.Perm.refl _
  | b :: l => by
      simp only [insertSorted]
      by_cases h : cmp a b ≤ 0
      · rw [if_pos h]
      · rw [if_neg h]
        exact ((insertSorted_perm cmp a l).cons b).trans (List.Perm.swap a b l)

theorem sortByCmp_perm (cmp : α → α → Int) :
    ∀ l : List α, List.Perm (sortByCmp cmp l) l
  | [] => List.Perm.refl _
  | a :: l =>
      (insertSorted_perm cmp a (sortByCmp cmp l)).trans ((sortByCmp_perm cmp l).cons a)

theorem sortByCmp_of_zero (cmp : α → α → Int) (h : ∀ a b, cmp a b = 0) :
    ∀ l : List α, sortByCmp cmp l = l
  | [] => rfl
  | a :: l => by
      rw [sortByCmp, sortByCmp_of_zero cmp h l]
      cases l with
      | nil => rfl
      | cons b l => simp [insertSorted, h a b]

theorem sortByCmp_congr (cmp cmp' : α → α → Int) (h : ∀ a b, cmp a b = cmp' a b) :
    ∀ l : List α, sortByCmp cmp l = sortByCmp cmp' l := by
  have hins : ∀ (a : α) (l : List α), insertSorted cmp a l = insertSorted cmp' a l := by
    intro a l
    induction l with
    | nil => rfl
    | cons b l ih => simp only [insertSorted, h a b, ih]
  intro l
  induction l with
  | nil => rfl
  | cons a l ih => simp only [sortByCmp, ih, hins]

/-! ### Generic variant: parse-completion handler and UI state (lines 17-42) -/

/-- The generic page's state hooks (lines 17-21): the parsed rows, the
header list, the sorted rows and the error banner text.  (The sort-key
selection state is irrelevant to the claims about the handler.) -/
structure GState where
  csvData : List GRow
  headers : List Str
  sortedData : List GRow
  error : Str
deriving DecidableEq

/-- JS `Object.keys(row)` on a row object. -/
def objectKeys (row : GRow) : List Str := row.map Prod.fst

/-- The `complete` callback of the generic `handleFileUpload` (lines
29-39): filter the parsed rows, store them with `setCsvData`, then read
the headers from `Object.keys(filteredData[0])`.  When `filteredData` is
empty, `filteredData[0]` is `undefined` and `Object.keys(undefined)`
throws a `TypeError`; the returned flag records that thrown exception.
The `setCsvData` update is already queued when the throw happens, so the
state it produced is kept. -/
def completeG (st : GState) (rows : List GRow) : GState × Bool :=
  let filteredData := rows.filter fun row => ! rowNoiseG row
  let st1 := { st with csvData := filteredData }
  match filteredData with
  | [] => (st1, true)
  | r :: _ => ({ st1 with headers := objectKeys r }, false)

/-- The `error` callback of the generic `handleFileUpload` (line 40):
`setError('Error parsing CSV file')`, touching no other state. -/
def errorCallbackG (st : GState) : GState :=
  { st with error := "Error parsing CSV file".data }

/-- Guard of `downloadSortedCSV` and of the download button (lines 95 and
261): the export control acts only when `sortedData` is non-empty. -/
def exportOffered (sortedData : List GRow) : Bool :=
  sortedData.length != 0

/-! ### Claim theorems over the generic variant -/

/-- C1.  The generic variant's multi-key comparator implements exactly the
spec's per-key policy: strings compare locale-aware, numbers by numeric
difference, booleans with false before true, and any other combination
(mixed types or a missing/`undefined` value) by locale-aware comparison of
the string representations; descending negates the per-key result
independently per key, and later keys are consulted only when every
earlier key ties. -/
theorem compareRows_eq_specCompareRows :
    ∀ (spec : List SortKey) (a b : GRow),
      compareRows spec a b = specCompareRows spec a b := by
  intro spec a b
  induction spec with
  | nil => rfl
  | cons k rest ih =>
      simp only [compareRows, specCompareRows, keyCompare_eq_spec, ih]

/-- C5.  Sorting is a permutation: for every dataset and every sort spec,
the sorted dataset is the same multiset of records as the input. -/
theorem sort_perm_multiset :
    ∀ (spec : List SortKey) (d : List GRow),
      (↑(genericSort spec d) : Multiset GRow) = (↑d : Multiset GRow) := by
  intro spec d
  exact Quot.sound (sortByCmp_perm (compareRows spec) d)

/-- C10.  With an empty sort spec the comparator returns `0` on every
pair, so sorting any non-empty dataset is the identity permutation: the
records come back in their original order. -/
theorem sort_empty_spec_identity :
    ∀ d : List GRow, d ≠ [] → genericSort [] d = d := by
  intro d _
  exact sortByCmp_of_zero _ (fun _ _ => rfl) d

/-- An example row used by concrete witnesses. -/
def exGRow : GRow := [(['p'], Value.num 10)]

/-- Witness for C10 at a concrete non-empty dataset. -/
theorem sort_empty_spec_identity_witness :
    [exGRow] ≠ ([] : List GRow) ∧ genericSort [] [exGRow] = [exGRow] :=
  ⟨by decide, sort_empty_spec_identity [exGRow] (by decide)⟩

/-- C6.  On a header-only file the parsed row list is empty, so the
filtered dataset is empty: the handler stores an empty dataset and the
export control stays unavailable — but line 38 then evaluates
`Object.keys(filteredData[0])` on `undefined` and throws a `TypeError`
(the returned flag), so the parse-completion handler is not total on an
empty filtered row sequence, contradicting the claim. -/
theorem completeG_empty_throws :
    ∀ st : GState,
      (completeG st []).1.csvData = []
      ∧ (completeG st []).2 = true
      ∧ exportOffered [] = false := by
  intro st
  exact ⟨rfl, rfl, rfl⟩

/-! ### Domain-specific variant: data model (second page in `page.tsx`)

This variant parses with `header: true, skipEmptyLines: true` and a
`transform` that trims every value, and without dynamic typing — so every
cell of a parsed row is a string.  A raw row is an association list from
column name to trimmed string. -/

/-- A raw row of the domain-specific variant: all cells are strings. -/
abbrev DRow := List (Str × Str)

/-- JS property access `row[column]` on a domain-variant raw row. -/
def lookupD : DRow → Str → Option Str
  | [], _ => none
  | (k, v) :: r, c => if k = c then some v else lookupD r c

/-- JS `x || d` for a possibly-`undefined` string `x`: the default is taken
when `x` is `undefined` or the empty string (both falsy). -/
def jsOrStr (o : Option Str) (d : Str) : Str :=
  match o with
  | none => d
  | some s => if s = [] then d else s

/-- JS `String.prototype.split` with a one-character separator: the
pieces between occurrences of `sep`, in order (`"".split(sep)` is `[""]`). -/
def splitOnChar (sep : Char) : Str → List Str
  | [] => [[]]
  | c :: cs =>
      if c = sep then [] :: splitOnChar sep cs
      else
        match splitOnChar sep cs with
        | [] => [[c]]
        | p :: ps => (c :: p) :: ps

/-- The fixed target schema of the normalization (the `CSVRow` interface of
the domain page): every field a string, except that `number` keeps the
possibly-`undefined` raw `Number` value as the code does. -/
structure Card where
  numbershort : Str
  number : Option Str
  productName : Str
  condition : Str
  qty : Str
  rarity : Str
  set : Str
  notes : Str
deriving DecidableEq

/-- Column-name and default literals used by the domain variant. -/
def numberKey : Str := "Number".data

def quantityKey : Str := "Quantity".data

def productNameKey : Str := "Product Name".data

def conditionKey : Str := "Condition".data

def rarityKey : Str := "Rarity".data

def setKey : Str := "Set".data

def oneLit : Str := "1".data

/-- `number?.split('-')[1] || ''` (line 338 of the source listing): the
segment at index 1 of the split, or empty when `Number` is `undefined`,
when there is no second segment, or when that segment is empty. -/
def numbershortOf (o : Option Str) : Str :=
  match o with
  | none => []
  | some s => jsOrStr (splitOnChar '-' s)[1]? []

/-- The map step of the domain-specific `handleFileUpload` (lines 336-351):
remap one raw row onto the fixed `Card` schema. -/
def normalizeRow (row : DRow) : Card :=
  let number := lookupD row numberKey
  { numbershort := numbershortOf number
    number := number
    productName := jsOrStr (lookupD row productNameKey) []
    condition := jsOrStr (lookupD row conditionKey) []
    qty := jsOrStr (lookupD row quantityKey) oneLit
    rarity := jsOrStr (lookupD row rarityKey) []
    set := jsOrStr (lookupD row setKey) []
    notes := [] }

/-! ### Domain-specific variant: filter (lines 325-335)

The filter callback is written over untyped rows (`row: any`) with an
explicit `typeof value === 'string'` guard, so it is modelled over `GRow`;
the parse configuration then instantiates it at all-string rows. -/

/-- The two lowercase noise markers of the domain filter (line 331). -/
def noiseD1 : Str := "orders contained in pull sheet".data

def noiseD2 : Str := "pull sheet".data

/-- Body of the domain filter predicate (lines 327-334): for string values
only, lower-case the value and test it for either noise marker. -/
def rowNoiseD (row : GRow) : Bool :=
  (row.map Prod.snd).any fun v =>
    match v with
    | Value.str s =>
        strIncludes (toLowerStr s) noiseD1 || strIncludes (toLowerStr s) noiseD2
    | _ => false

/-- The domain variant's filter step (lines 324-335). -/
def domainFilterStep (rows : List GRow) : List GRow :=
  rows.filter fun row => ! rowNoiseD row

/-- Injection of an all-string row into the untyped row type, reflecting
the domain parse configuration (every cell a trimmed string). -/
def strRow (row : DRow) : GRow := row.map fun kv => (kv.1, Value.str kv.2)

/-! ### Domain-specific variant: hardcoded sort (lines 352-371) -/

/-- The comparator of the domain variant's `.sort` (lines 353-371):
`set`, then `rarity`, then `condition`, then `product name`, each via
`localeCompare`, with an early return guarded by string inequality. -/
def cardCompare (a b : Card) : Int :=
  if a.set ≠ b.set then localeCompare a.set b.set
  else if a.rarity ≠ b.rarity then localeCompare a.rarity b.rarity
  else if a.condition ≠ b.condition then localeCompare a.condition b.condition
  else localeCompare a.productName b.productName

/-- The domain variant's sort step. -/
def domainSortStep (cards : List Card) : List Card :=
  sortByCmp cardCompare cards

/-- The whole `filter → map → sort` chain of the domain-specific
`handleFileUpload` (lines 324-371), on all-string raw rows. -/
def domainTransform (rows : List DRow) : List Card :=
  domainSortStep ((rows.filter fun r => ! rowNoiseD (strRow r)).map normalizeRow)

/-! ### Domain-specific variant: upload state machine (lines 301-378) -/

/-- Result of `Papa.parse` as consumed by the domain variant: parsed rows
and the list of parse-error messages (`results.errors[i].message`). -/
structure ParseRes where
  data : List DRow
  errors : List Str
deriving DecidableEq

/-- The domain page's state hooks (lines 298-299). -/
structure DState where
  csvData : List Card
  error : Str
deriving DecidableEq

/-- The domain-specific `handleFileUpload` after parse resolution (lines
316-373): on a parse error, set the error banner to the first error's
message and return — leaving `csvData` untouched; otherwise clear the
error and store the transformed dataset. -/
def domainUpload (st : DState) (res : ParseRes) : DState :=
  match res.errors with
  | e :: _ => { st with error := e }
  | [] => { csvData := domainTransform res.data, error := [] }

/-! ### Spec-worded definitions for the filtering and normalization claims -/

/-- The string content of a cell, when the cell is a string. -/
def valueAsStr : Value → Option Str
  | Value.str s => some s
  | _ => none

/-- Spec-worded generic noise test: a cell counts only when it is a string
containing the designated substring case-sensitively. -/
def specNoiseValueG (v : Value) : Bool :=
  ((valueAsStr v).map fun s => strIncludes s noiseG).getD false

/-- Spec-worded generic row-removal predicate: some value of the row is a
string containing the designated noise substring. -/
def specNoisyRowG (row : GRow) : Bool :=
  (row.map Prod.snd).any specNoiseValueG

/-- Case-insensitive substring containment, as the spec words it. -/
def ciIncludes (s pat : Str) : Bool :=
  strIncludes (toLowerStr s) (toLowerStr pat)

/-- Spec-worded domain noise test: a string cell containing, case-
insensitively, either designated noise substring. -/
def specNoiseValueD (v : Value) : Bool :=
  ((valueAsStr v).map fun s => ciIncludes s noiseD1 || ciIncludes s noiseD2).getD false

/-- Spec-worded domain row-removal predicate. -/
def specNoisyRowD (row : GRow) : Bool :=
  (row.map Prod.snd).any specNoiseValueD

/-- Claim-worded reading of `numbershort` in C2: the substring of the raw
`Number` value following the first `-` delimiter. -/
def afterFirstDash : Str → Str
  | [] => []
  | c :: cs => if c = '-' then cs else afterFirstDash cs

/-- Amended-spec reading of `numbershort`: split `Number` on `-` and take
the segment at index 1 (the text between the first and second `-`, or
after the only `-`); empty when `Number` is absent or has no `-`. -/
def specNumbershortAmended (o : Option Str) : Str :=
  match o with
  | none => []
  | some s =>
      match splitOnChar '-' s with
      | _ :: seg :: _ => seg
      | _ => []

/-- Spec-worded `qty` rule: the raw `Quantity` value, defaulting to the
literal string `"1"` when `Quantity` is absent or empty. -/
def specQty (o : Option Str) : Str :=
  match o with
  | none => oneLit
  | some s => if s = [] then oneLit else s

/-- Claim-worded domain comparator of C3: the same key sequence, all
ascending, but with plain (code-unit, non-locale-aware) string
comparison. -/
def claimCardCompare (a b : Card) : Int :=
  if lexCmp a.set b.set ≠ 0 then lexCmp a.set b.set
  else if lexCmp a.rarity b.rarity ≠ 0 then lexCmp a.rarity b.rarity
  else if lexCmp a.condition b.condition ≠ 0 then lexCmp a.condition b.condition
  else lexCmp a.productName b.productName

/-- Amended-spec domain comparator: `set`, then `rarity`, then
`condition`, then `product name`, all ascending, each key compared with
locale-aware string comparison and the next key consulted exactly when
the comparison ties. -/
def amendedCardCompare (a b : Card) : Int :=
  if localeCompare a.set b.set ≠ 0 then localeCompare a.set b.set
  else if localeCompare a.rarity b.rarity ≠ 0 then localeCompare a.rarity b.rarity
  else if localeCompare a.condition b.condition ≠ 0 then localeCompare a.condition b.condition
  else localeCompare a.productName b.productName

/-! ### Concrete rows and cards used by witnesses and counterexamples -/

/-- Raw `Number` value of the spec's concrete scenario 1, first row. -/
def exNumber1 : Str := "LOB-001-EN".data

/-- Raw `Number` value of the spec's concrete scenario 1, second row. -/
def exNumber2 : Str := "LOB-002-EN".data

/-- First row of the spec's concrete scenario 1. -/
def exRow1 : DRow :=
  [(numberKey, exNumber1), (quantityKey, "2".data), (rarityKey, "Common".data)]

/-- Second row of the spec's concrete scenario 1 (empty `Quantity`). -/
def exRow2 : DRow :=
  [(numberKey, exNumber2), (quantityKey, []), (rarityKey, "Rare".data)]

/-- A card whose `set` is the lowercase string `"a"`. -/
def exCardLowerA : Card := ⟨[], none, [], [], oneLit, [], ['a'], []⟩

/-- A card whose `set` is the uppercase string `"B"`. -/
def exCardUpperB : Card := ⟨[], none, [], [], oneLit, [], ['B'], []⟩

/-- A domain-page state already displaying one card. -/
def exDState : DState := ⟨[exCardLowerA], []⟩

/-- A parse result carrying one parse-error message and no rows. -/
def exParseErr : ParseRes := ⟨[], ["Too many fields".data]⟩

/-! ### Claim theorems over the domain-specific variant -/

/-- C2 (counterexample).  On the spec's own concrete row the code's
`numbershort` is `"001"` — the segment between the first and second `-` —
not `"001-EN"`, the substring following the first `-` that the claim
announces. -/
theorem numbershort_counterexample :
    (normalizeRow exRow1).numbershort = "001".data
    ∧ afterFirstDash exNumber1 = "001-EN".data
    ∧ (normalizeRow exRow1).numbershort ≠ "001-EN".data := by decide

/-- C2 (amended).  For every record, `numbershort` is the segment of the
raw `Number` value at index 1 of its split on `-` (empty when `Number` is
absent or has no `-`); on the concrete scenario row it is `"001"`. -/
theorem numbershort_second_segment :
    (∀ o : Option Str, numbershortOf o = specNumbershortAmended o)
    ∧ (∀ row : DRow,
        (normalizeRow row).numbershort = specNumbershortAmended (lookupD row numberKey))
    ∧ (normalizeRow exRow1).numbershort = "001".data
    ∧ (normalizeRow exRow2).numbershort = "002".data := by
  have main : ∀ o : Option Str, numbershortOf o = specNumbershortAmended o := by
    intro o
    cases o with
    | none => rfl
    | some s =>
        show jsOrStr (splitOnChar '-' s)[1]? [] = _
        rcases h : splitOnChar '-' s with _ | ⟨p, _ | ⟨seg, rest⟩⟩
        · simp [specNumbershortAmended, h, jsOrStr]
        · simp [specNumbershortAmended, h, jsOrStr]
        · by_cases hseg : seg = []
          · simp [specNumbershortAmended, h, jsOrStr, hseg]
          · simp [specNumbershortAmended, h, jsOrStr, hseg]
  exact ⟨main, fun row => main (lookupD row numberKey), by decide, by decide⟩

/-- C7.  For every record, `qty` is the raw `Quantity` value, with the
default `"1"` taken exactly in the branch where `Quantity` is absent or
the empty string; on the spec's scenario rows it is `"2"` and `"1"`. -/
theorem qty_default_policy :
    (∀ row : DRow, (normalizeRow row).qty = specQty (lookupD row quantityKey))
    ∧ (normalizeRow exRow1).qty = "2".data
    ∧ (normalizeRow exRow2).qty = oneLit := by
  refine ⟨?_, by decide, by decide⟩
  intro row
  show jsOrStr (lookupD row quantityKey) oneLit = specQty (lookupD row quantityKey)
  cases lookupD row quantityKey with
  | none => rfl
  | some s => rfl

/-- C4.  Both filters remove exactly the records in which some string
value contains a designated noise substring — case-sensitively
`"Orders Contained in Pull Sheet"` in the generic variant,
case-insensitively `"orders contained in pull sheet"` or `"pull sheet"`
in the domain variant — non-string values never match, and the surviving
records keep their original relative order (the output is a sublist of
the input). -/
theorem filter_noise_characterization :
    ∀ rows drows : List GRow,
      genericFilterStep rows = rows.filter (fun r => ! specNoisyRowG r)
      ∧ List.Sublist (genericFilterStep rows) rows
      ∧ domainFilterStep drows = drows.filter (fun r => ! specNoisyRowD r)
      ∧ List.Sublist (domainFilterStep drows) drows := by
  have tl1 : toLowerStr noiseD1 = noiseD1 := by decide
  have tl2 : toLowerStr noiseD2 = noiseD2 := by decide
  have hg : ∀ row : GRow, rowNoiseG row = specNoisyRowG row := by
    intro row
    unfold rowNoiseG specNoisyRowG
    exact congrArg _ (funext fun v => by cases v <;> rfl)
  have hd : ∀ row : GRow, rowNoiseD row = specNoisyRowD row := by
    intro row
    unfold rowNoiseD specNoisyRowD
    refine congrArg _ (funext fun v => ?_)
    cases v with
    | str s => simp [specNoiseValueD, valueAsStr, ciIncludes, tl1, tl2]
    | num n => rfl
    | bool b => rfl
  intro rows drows
  refine ⟨?_, List.filter_sublist _, ?_, List.filter_sublist _⟩
  · exact congrArg (fun p => List.filter p rows) (funext fun row => by rw [hg row])
  · exact congrArg (fun p => List.filter p drows) (funext fun row => by rw [hd row])

/-- C8.  Both noise filters are idempotent: filtering an already-filtered
dataset yields the same dataset. -/
theorem filter_idempotent :
    ∀ rows drows : List GRow,
      genericFilterStep (genericFilterStep rows) = genericFilterStep rows
      ∧ domainFilterStep (domainFilterStep drows) = domainFilterStep drows := by
  intro rows drows
  constructor <;> simp [genericFilterStep, domainFilterStep, List.filter_filter]

theorem cardCompare_eq_amended (a b : Card) :
    cardCompare a b = amendedCardCompare a b := by
  by_cases h1 : a.set = b.set <;>
  by_cases h2 : a.rarity = b.rarity <;>
  by_cases h3 : a.condition = b.condition <;>
  simp [cardCompare, amendedCardCompare, h1, h2, h3, localeCompare_eq_zero_iff]

/-- C3 (counterexample).  The claim's plain (code-unit) string comparison
puts `"B"` before `"a"`, while the code's `localeCompare` puts `"a"`
before `"B"` under the default locale: on two cards whose `set` fields
are `"B"` and `"a"`, the code's sort and the claim's plain-comparison
sort produce different orders. -/
theorem domainSort_plain_comparison_counterexample :
    domainSortStep [exCardUpperB, exCardLowerA] = [exCardLowerA, exCardUpperB]
    ∧ sortByCmp claimCardCompare [exCardUpperB, exCardLowerA]
        = [exCardUpperB, exCardLowerA]
    ∧ domainSortStep [exCardUpperB, exCardLowerA]
        ≠ sortByCmp claimCardCompare [exCardUpperB, exCardLowerA] := by decide

/-- C3 (amended).  The domain variant sorts by the hardcoded key sequence
`set`, `rarity`, `condition`, `product name`, all ascending, each key
compared with locale-aware string comparison (`localeCompare`) on the
already-stringified schema fields, later keys consulted exactly on
ties. -/
theorem domainSort_localeCompare_keys :
    ∀ cards : List Card, domainSortStep cards = sortByCmp amendedCardCompare cards := by
  intro cards
  exact sortByCmp_congr _ _ cardCompare_eq_amended cards

/-- C9 (counterexample).  A parse error arriving while a previous dataset
is displayed sets the error banner but leaves the dataset on screen: both
an error message and records are shown, refuting all-or-nothing. -/
theorem upload_error_retains_counterexample :
    (domainUpload exDState exParseErr).error ≠ []
    ∧ (domainUpload exDState exParseErr).csvData ≠ [] := by decide

/-- C9 (amended).  When parsing reports an error, the error branch only
sets the error message: the previously displayed dataset is retained, in
both variants; only a successful upload replaces the dataset. -/
theorem upload_error_retains_dataset :
    (∀ (st : DState) (dat : List DRow) (e : Str) (rest : List Str),
        domainUpload st ⟨dat, e :: rest⟩ = ⟨st.csvData, e⟩)
    ∧ (∀ st : GState, (errorCallbackG st).csvData = st.csvData) := by
  exact ⟨fun st dat e rest => rfl, fun st => rfl⟩

end CsvSort
